import Mathlib

set_option linter.unusedVariables false

/-!
# Verification of the HTML → Ricos converter (`app.py`)

A shallow embedding of the conversion core of `app.py`: the HTML element
tree produced by the external parser is modelled by `HNode`; the Ricos
node dictionaries built by the Python code are modelled by the `Ricos`
inductive (the random `generate_id()` values, which no property depends
on, are omitted); Python dictionary/string truthiness is modelled
explicitly; the `KeyError` raised by `tag["attr"]` on a missing
attribute is modelled by `Except String`.

Python string helpers (`str.strip`, `str.split`, `in`,
`urllib.parse.unquote`, `os.path.basename`) are re-implemented over
`List Char` with structural/fuel recursion so that every definition
evaluates inside the kernel.
-/

/-- The DOM-like tree exposed by BeautifulSoup: a `NavigableString` or a
`Tag` with a name, attributes and children.  The `class` attribute is
stored as its raw string and split on whitespace on access, matching
BeautifulSoup's multi-valued attribute handling. -/
inductive HNode where
  | text (s : String)
  | elem (name : String) (attrs : List (String × String)) (children : List HNode)
deriving Repr

/-! ## Python string primitives -/

/-- Model of Python `str.strip()` (used via `txt.strip()` and
`get_text(strip=True)`). -/
def pyStrip (s : String) : String :=
  String.mk (((s.toList.dropWhile Char.isWhitespace).reverse.dropWhile Char.isWhitespace).reverse)

/-- `listStartsWith l pat` : does `l` start with `pat`? -/
def listStartsWith : List Char → List Char → Bool
  | _, [] => true
  | [], _ :: _ => false
  | a :: as, b :: bs => a == b && listStartsWith as bs

/-- Model of the Python substring test `pat in s` (for non-empty `pat`). -/
def listContainsSub (pat : List Char) : List Char → Bool
  | [] => listStartsWith [] pat
  | c :: rest => listStartsWith (c :: rest) pat || listContainsSub pat rest

/-- Python `pat in s` for strings. -/
def strContains (s pat : String) : Bool :=
  listContainsSub pat.toList s.toList

/-- Model of Python `str.split(sep)` for a non-empty separator,
fuel-recursive so it evaluates in the kernel. -/
def splitList (sep : List Char) : Nat → List Char → List (List Char)
  | _, [] => [[]]
  | 0, l => [l]
  | fuel + 1, c :: rest =>
    if sep ≠ [] && listStartsWith (c :: rest) sep then
      [] :: splitList sep fuel ((c :: rest).drop sep.length)
    else
      match splitList sep fuel rest with
      | [] => [[c]]
      | h :: t => (c :: h) :: t

/-- Python `s.split(sep)`. -/
def pySplit (s sep : String) : List String :=
  (splitList sep.toList s.toList.length s.toList).map String.mk

/-- Model of `os.path.basename` for the forward-slash paths the code
handles: the part after the last `/`. -/
def basename (s : String) : String :=
  ((pySplit s "/").getLastD s)

/-- Hexadecimal digit value, as accepted by `urllib.parse.unquote`. -/
def hexVal (c : Char) : Option Nat :=
  if '0' ≤ c ∧ c ≤ '9' then some (c.toNat - '0'.toNat)
  else if 'a' ≤ c ∧ c ≤ 'f' then some (c.toNat - 'a'.toNat + 10)
  else if 'A' ≤ c ∧ c ≤ 'F' then some (c.toNat - 'A'.toNat + 10)
  else none

/-- UTF-8 encoding of a character (for the pass-through bytes of
`unquote`). -/
def utf8Enc (c : Char) : List UInt8 :=
  let n := c.toNat
  if n < 0x80 then [UInt8.ofNat n]
  else if n < 0x800 then
    [UInt8.ofNat (0xC0 + n / 64), UInt8.ofNat (0x80 + n % 64)]
  else if n < 0x10000 then
    [UInt8.ofNat (0xE0 + n / 4096), UInt8.ofNat (0x80 + n / 64 % 64), UInt8.ofNat (0x80 + n % 64)]
  else
    [UInt8.ofNat (0xF0 + n / 262144), UInt8.ofNat (0x80 + n / 4096 % 64),
     UInt8.ofNat (0x80 + n / 64 % 64), UInt8.ofNat (0x80 + n % 64)]

/-- Is `b` a UTF-8 continuation byte? -/
def isCont (b : UInt8) : Bool := 0x80 ≤ b && b ≤ 0xBF

/-- UTF-8 decoding of a byte run, one replacement character per
undecodable byte, modelling `bytes.decode('utf-8', errors='replace')`
as `unquote` uses it; it agrees with Python on every valid sequence
(in particular on all-ASCII input). -/
def utf8DecodeRun : Nat → List UInt8 → List Char
  | 0, _ => []
  | _, [] => []
  | fuel + 1, b :: rest =>
    if b < 0x80 then Char.ofNat b.toNat :: utf8DecodeRun fuel rest
    else if 0xC2 ≤ b && b ≤ 0xDF then
      match rest with
      | b2 :: rest2 =>
        if isCont b2 then
          Char.ofNat ((b.toNat - 0xC0) * 64 + (b2.toNat - 0x80)) :: utf8DecodeRun fuel rest2
        else (Char.ofNat 0xFFFD) :: utf8DecodeRun fuel rest
      | [] => [Char.ofNat 0xFFFD]
    else if 0xE0 ≤ b && b ≤ 0xEF then
      match rest with
      | b2 :: b3 :: rest3 =>
        if isCont b2 && isCont b3 then
          Char.ofNat ((b.toNat - 0xE0) * 4096 + (b2.toNat - 0x80) * 64 + (b3.toNat - 0x80)) ::
            utf8DecodeRun fuel rest3
        else (Char.ofNat 0xFFFD) :: utf8DecodeRun fuel rest
      | _ => [Char.ofNat 0xFFFD]
    else if 0xF0 ≤ b && b ≤ 0xF4 then
      match rest with
      | b2 :: b3 :: b4 :: rest4 =>
        if isCont b2 && isCont b3 && isCont b4 then
          Char.ofNat ((b.toNat - 0xF0) * 262144 + (b2.toNat - 0x80) * 4096 +
              (b3.toNat - 0x80) * 64 + (b4.toNat - 0x80)) :: utf8DecodeRun fuel rest4
        else (Char.ofNat 0xFFFD) :: utf8DecodeRun fuel rest
      | _ => [Char.ofNat 0xFFFD]
    else (Char.ofNat 0xFFFD) :: utf8DecodeRun fuel rest

/-- Collect the maximal run of `%HH` escapes at the head of the list,
returning the decoded bytes and the remainder. -/
def grabEscapeBytes : List Char → List UInt8 × List Char
  | '%' :: h1 :: h2 :: rest =>
    match hexVal h1, hexVal h2 with
    | some a, some b =>
      let p := grabEscapeBytes rest
      (UInt8.ofNat (16 * a + b) :: p.1, p.2)
    | _, _ => ([], '%' :: h1 :: h2 :: rest)
  | l => ([], l)

/-- Worker for `unquote`: literal characters pass through; each maximal
run of `%HH` escapes is decoded as UTF-8 (Python
`urllib.parse.unquote`). -/
def unquoteAux : Nat → List Char → List Char
  | 0, _ => []
  | _, [] => []
  | fuel + 1, c :: rest =>
    if c == '%' then
      match rest with
      | h1 :: h2 :: _ =>
        match hexVal h1, hexVal h2 with
        | some _, some _ =>
          let p := grabEscapeBytes (c :: rest)
          utf8DecodeRun (p.1.length + 1) p.1 ++ unquoteAux fuel p.2
        | _, _ => c :: unquoteAux fuel rest
      | _ => c :: unquoteAux fuel rest
    else c :: unquoteAux fuel rest

/-- Model of `urllib.parse.unquote`. -/
def unquote (s : String) : String :=
  String.mk (unquoteAux s.toList.length s.toList)

/-- Python truthiness of an optional string (`None` and `""` are
falsy). -/
def pyTruthy : Option String → Bool
  | some s => !(s == "")
  | none => false

/-! ## BeautifulSoup tree accessors -/

/-- `tag.name` (`NavigableString`s never reach a `.name` access in the
modelled code paths; they get the empty name). -/
def HNode.name : HNode → String
  | .text _ => ""
  | .elem n _ _ => n

/-- Attribute lookup in an attribute list: `tag.get(key)`. -/
def lookupAttrL (attrs : List (String × String)) (key : String) : Option String :=
  (attrs.find? (fun p => p.1 == key)).map (fun p => p.2)

/-- `tag.get(key)`. -/
def getAttr (n : HNode) (key : String) : Option String :=
  match n with
  | .text _ => none
  | .elem _ attrs _ => lookupAttrL attrs key

/-- `tag.get(key, default)`. -/
def getAttrD (n : HNode) (key default : String) : String :=
  (getAttr n key).getD default

/-- BeautifulSoup's multi-valued `class` attribute: the raw string split
on whitespace (`tag.get("class", [])`). -/
def classesOf (attrs : List (String × String)) : List String :=
  match lookupAttrL attrs "class" with
  | some v => (pySplit v " ").filter (fun c => !(c == ""))
  | none => []

/-- Direct children (`tag.contents`). -/
def childrenOf : HNode → List HNode
  | .text _ => []
  | .elem _ _ cs => cs

/-- Direct children that are tags (`find_all(recursive=False)`). -/
def directChildTags (n : HNode) : List HNode :=
  (childrenOf n).filter (fun c => match c with | .elem _ _ _ => true | .text _ => false)

/-- Direct child tags with a given name
(`find_all(name, recursive=False)`). -/
def directChildrenNamed (nm : String) (n : HNode) : List HNode :=
  (childrenOf n).filter (fun c => match c with | .elem cn _ _ => cn == nm | .text _ => false)

mutual
/-- All tag descendants of a node (excluding the node itself), in
pre-order — the traversal order of `find_all` / `.descendants`. -/
def descTags : HNode → List HNode
  | .text _ => []
  | .elem _ _ cs => descTagsL cs

def descTagsL : List HNode → List HNode
  | [] => []
  | .text _ :: rest => descTagsL rest
  | .elem n a cs :: rest => HNode.elem n a cs :: (descTags (.elem n a cs) ++ descTagsL rest)
end

/-- `tag.find_all(nm)` (recursive). -/
def findAllName (nm : String) (n : HNode) : List HNode :=
  (descTags n).filter (fun c => c.name == nm)

/-- `tag.find_all([nm₁, nm₂])` (recursive). -/
def findAllNames (nms : List String) (n : HNode) : List HNode :=
  (descTags n).filter (fun c => nms.contains c.name)

/-- `soup.find(nm)`: first matching tag descendant, pre-order. -/
def findFirstName (nm : String) (n : HNode) : Option HNode :=
  (descTags n).find? (fun c => c.name == nm)

mutual
/-- All string descendants concatenated: `tag.get_text()`. -/
def getTextAll : HNode → String
  | .text s => s
  | .elem _ _ cs => getTextAllL cs

def getTextAllL : List HNode → String
  | [] => ""
  | c :: cs => getTextAll c ++ getTextAllL cs
end

mutual
/-- `tag.get_text(strip=True)`: each string descendant stripped, then
concatenated. -/
def getTextStripped : HNode → String
  | .text s => pyStrip s
  | .elem _ _ cs => getTextStrippedL cs

def getTextStrippedL : List HNode → String
  | [] => ""
  | c :: cs => getTextStripped c ++ getTextStrippedL cs
end

/-- BeautifulSoup `tag.string`: the single string child, descending
through lone tag children; `None` otherwise. -/
def nodeString : HNode → Option String
  | .text s => some s
  | .elem _ _ [.text s] => some s
  | .elem _ _ [.elem n a cs] => nodeString (.elem n a cs)
  | .elem _ _ _ => none

/-! ## Ricos node model

Each constructor mirrors one dictionary shape built by `app.py`; the
random `generate_id()` ids are omitted (no property depends on them).
-/

/-- One entry of a `decorations` list (`format_decorations` and the
extra decorations appended by callers).  The `rel` of a link is the
list of keys set to `True` in the Python `rel` dict. -/
inductive Decoration where
  | bold (fontWeightValue : Nat)
  | color (foreground background : String)
  | link (url target : String) (rel : List String)
  | underline
  | fontSize (unit : String) (value : Nat)
deriving Repr, DecidableEq

/-- Ricos nodes as built by `app.py`.  `PARAGRAPH` carries the `style`
dict (as a key/value list) and the optional `paragraphData` line
height; `TABLE_CELL` carries its `cellStyle` dict; `IMAGE` carries the
media id, alt text and the optional width/height pair. -/
inductive Ricos where
  | TEXT (text : String) (decorations : List Decoration)
  | PARAGRAPH (nodes : List Ricos) (style : List (String × String)) (lineHeight : Option String)
  | HEADING (nodes : List Ricos) (level : Nat)
  | ORDERED_LIST (nodes : List Ricos)
  | BULLETED_LIST (nodes : List Ricos)
  | LIST_ITEM (nodes : List Ricos)
  | TABLE (nodes : List Ricos) (colsWidthRatio rowsHeight colsMinWidth : List Nat)
  | TABLE_ROW (nodes : List Ricos)
  | TABLE_CELL (nodes : List Ricos) (cellStyle : List (String × String))
  | IMAGE (srcId : String) (altText : String) (width height : Option Int)
deriving Repr

/-- `empty_paragraph()`. -/
def empty_paragraph : Ricos := .PARAGRAPH [] [] none

/-- `format_decorations(is_bold, is_link, link_url, is_underline)`. -/
def format_decorations (is_bold is_link : Bool) (link_url : Option String)
    (is_underline : Bool) : List Decoration :=
  (if is_bold || is_link then [.bold 700] else []) ++
  [if is_link then Decoration.color "#3A11AE" "transparent"
   else Decoration.color "rgb(0, 0, 0)" "transparent"] ++
  (if is_link && pyTruthy link_url then
      [.link (link_url.getD "") "BLANK" ["noreferrer"]] else []) ++
  (if is_underline then [.underline] else [])

/-- `build_text_node(text, bold, link, underline, extra_decorations)`.
The Python call passes `bool(link)` for `is_link`; the `if d` filter on
the extras is a no-op for the (always truthy) decoration dicts the
callers supply. -/
def build_text_node (text : String) (bold : Bool) (link : Option String)
    (underline : Bool) (extra_decorations : List Decoration) : Ricos :=
  .TEXT text (format_decorations bold (pyTruthy link) link underline ++ extra_decorations)

/-- `wrap_paragraph_nodes(nodes)`. -/
def wrap_paragraph_nodes (nodes : List Ricos) : Ricos :=
  .PARAGRAPH nodes [] none

/-- `wrap_heading(text, level)`. -/
def wrap_heading (text : String) (level : Nat) : Ricos :=
  let decorations : List Decoration :=
    if level == 3 then [.fontSize "PX" 22] else []
  .HEADING [build_text_node text true none false decorations] level

/-- `wrap_list(items, ordered)`. -/
def wrap_list (items : List (List Ricos)) (ordered : Bool) : Ricos :=
  let nodes := items.map (fun item =>
    Ricos.LIST_ITEM [.PARAGRAPH item [("paddingTop", "0px"), ("paddingBottom", "0px")] (some "2")])
  if ordered then .ORDERED_LIST nodes else .BULLETED_LIST nodes

/-- The `highlight_style` dict of `wrap_table`. -/
def highlight_style : List (String × String) :=
  [("verticalAlignment", "TOP"), ("backgroundColor", "#CAB8FF")]

/-- `node["textData"]["text"]` of a `TEXT` node. -/
def textOf : Ricos → String
  | .TEXT t _ => t
  | _ => ""

/-- Is the Ricos node a `TEXT` node? -/
def isTEXT : Ricos → Bool
  | .TEXT _ _ => true
  | _ => false

/-- `wrap_table(table_data)`. -/
def wrap_table (table_data : List (List (List Ricos))) : Ricos :=
  let num_rows := table_data.length
  let num_cols := if table_data.isEmpty then 0
    else (table_data.map List.length).foldl Nat.max 0
  .TABLE
    ((table_data.enum).map (fun r =>
      Ricos.TABLE_ROW ((r.2.enum).map (fun c =>
        Ricos.TABLE_CELL
          [wrap_paragraph_nodes ((c.2.filter isTEXT).map (fun node =>
            build_text_node (textOf node) false none false
              (if r.1 > 0 && c.1 > 0 then [.fontSize "PX" 16] else [])))]
          (if r.1 == 0 || c.1 == 0 then highlight_style else [])))))
    (List.replicate num_cols 754) (List.replicate num_rows 47) (List.replicate num_cols 120)

/-! ## Image objects and the image reference resolver -/

/-- A value of `image_url_map` / `images_fifo`: a dict (with optional
`id` / `ID` / `mediaId` keys and optional `width` / `height`), a raw
string, or any other JSON shape. -/
inductive ImgVal where
  | dict (id ID mediaId : Option String) (width height : Option Int)
  | str (s : String)
  | other
deriving Repr, DecidableEq

/-- Python `a or b` on string-or-`None` values (`""` and `None` are
falsy). -/
def orStr : Option String → Option String → Option String
  | some s, b => if s == "" then b else some s
  | none, b => b

/-- The normalized image object `{'id': .., 'width':?, 'height':?}`. -/
structure NormImg where
  id : String
  width : Option Int
  height : Option Int
deriving Repr, DecidableEq

/-- `_normalize_img_obj(obj)`. -/
def normalize_img_obj : ImgVal → Option NormImg
  | .dict i I m w h =>
    match orStr (orStr i I) m with
    | none => none
    | some media_id =>
      if media_id == "" then none
      else if w.isSome && h.isSome then some ⟨media_id, w, h⟩
      else some ⟨media_id, none, none⟩
  | .str s =>
    if strContains s "~mv2." && !strContains s "static.wixstatic.com/media/" then
      some ⟨s, none, none⟩
    else none
  | .other => none

/-- `wrap_image(img_obj, alt)`; `img_obj` may be the `None` returned by
`resolve_image_src`. -/
def wrap_image (img_obj : Option ImgVal) (alt : String) : Option Ricos :=
  match img_obj.bind normalize_img_obj with
  | none => none
  | some norm =>
    if norm.id == "" then none
    else some (.IMAGE norm.id alt norm.width norm.height)

/-- `is_absolute_url(url)` (defined in `app.py` but never called). -/
def is_absolute_url (url : String) : Bool :=
  listStartsWith url.toList "http://".toList ||
  listStartsWith url.toList "https://".toList ||
  listStartsWith url.toList "//".toList

/-- First map hit of `resolve_image_src`: exact key, then basename key,
guarded by the truthiness (non-emptiness) of the map. -/
def mapLookup (src : String) (image_url_map : Option (List (String × ImgVal))) :
    Option ImgVal :=
  match image_url_map with
  | some m =>
    if m.isEmpty then none
    else
      match (m.find? (fun p => p.1 == src)).map (fun p => p.2) with
      | some v => some v
      | none => (m.find? (fun p => p.1 == basename src)).map (fun p => p.2)
  | none => none

/-- `resolve_image_src(src, base_url, image_url_map, images_fifo)`.
The Python function mutates `images_fifo` by `pop(0)`; the updated
queue is returned as the second component.  `base_url` is accepted and
ignored, exactly as in the source. -/
def resolve_image_src (src : String) (base_url : Option String)
    (image_url_map : Option (List (String × ImgVal)))
    (images_fifo : Option (List ImgVal)) : Option ImgVal × Option (List ImgVal) :=
  if src == "" then (none, images_fifo)
  else
    match mapLookup src image_url_map with
    | some v => (some v, images_fifo)
    | none =>
      match images_fifo with
      | some (x :: rest) => (some x, some rest)
      | _ =>
        if strContains src "~mv2." && !strContains src "static.wixstatic.com/media/" then
          (some (.dict (some src) none none none none), images_fifo)
        else (none, images_fifo)

/-! ## Spacing -/

/-- `apply_spacing(nodes, block_type)` — the `nodes` argument is unused
in the source; the result is `(before.get(bt, 0), after.get(bt, 0))`. -/
def apply_spacing (block_type : String) : Nat × Nat :=
  let before : Nat :=
    if block_type == "H2" then 2
    else if block_type == "H3" || block_type == "H4" || block_type == "ORDERED_LIST" ||
        block_type == "BULLETED_LIST" || block_type == "PARAGRAPH" || block_type == "IMAGE" then 1
    else 0
  let after : Nat :=
    if block_type == "TABLE" then 2
    else if block_type == "H2" || block_type == "H3" || block_type == "H4" ||
        block_type == "ORDERED_LIST" || block_type == "BULLETED_LIST" ||
        block_type == "PARAGRAPH" || block_type == "IMAGE" then 1
    else 0
  (before, after)

/-- Is the node an empty paragraph (`n["type"] == "PARAGRAPH" and not
n["nodes"]`) — the spacer representation? -/
def isEmptyPara : Ricos → Bool
  | .PARAGRAPH [] _ _ => true
  | _ => false

/-- `count_trailing_empty_paragraphs(nodes)`. -/
def count_trailing_empty_paragraphs (nodes : List Ricos) : Nat :=
  (nodes.reverse.takeWhile isEmptyPara).length

/-- `ensure_spacing(nodes, required)`: pad with `empty_paragraph()`s or
pop until exactly `required` trailing empty paragraphs. -/
def ensure_spacing (nodes : List Ricos) (required : Nat) : List Ricos :=
  let current := count_trailing_empty_paragraphs nodes
  if current ≤ required then nodes ++ List.replicate (required - current) empty_paragraph
  else nodes.take (nodes.length - (current - required))

/-- The final `while nodes and nodes[-1] is an empty paragraph: pop()`
loop of `html_to_ricos`. -/
def trimTrailingEmpty (nodes : List Ricos) : List Ricos :=
  (nodes.reverse.dropWhile isEmptyPara).reverse

/-! ## Inline extraction -/

/-- Python `bold_class and bold_class in classes`. -/
def boldIn (bold_class : Option String) (classes : List String) : Bool :=
  match bold_class with
  | some bc => !(bc == "") && classes.contains bc
  | none => false

/-- The `class` list of a tag. -/
def classesOfNode : HNode → List String
  | .text _ => []
  | .elem _ attrs _ => classesOf attrs

/-- The de-redirected, percent-decoded link target computed in the
anchor branch of `extract_parts`. -/
def deRedirect (href : String) : String :=
  if strContains href "google.com/url?q=" then
    unquote ((pySplit ((pySplit href "q=").getD 1 "") "&").getD 0 "")
  else unquote href

/-- `any(child.name == "span" and bold_class and bold_class in
child.get("class", []) for child in item.descendants if
isinstance(child, Tag))`. -/
def anyDescSpanBold (bold_class : Option String) (children : List HNode) : Bool :=
  (descTagsL children).any (fun ch => ch.name == "span" && boldIn bold_class (classesOfNode ch))

mutual
/-- `extract_parts(tag, bold_class, base_url, image_url_map,
images_fifo)`.  The last three parameters are passed through untouched,
as in the source (the `<img>` branch deliberately skips, so the queue
is never consumed here). -/
def extract_parts (tag : HNode) (bold_class : Option String) (base_url : Option String)
    (image_url_map : Option (List (String × ImgVal))) (images_fifo : Option (List ImgVal)) :
    List Ricos :=
  match tag with
  | .text _ => []
  | .elem n attrs cs => extract_parts_children n attrs cs bold_class base_url image_url_map images_fifo

/-- The `for item in tag.children` loop of `extract_parts`; `pname` /
`pattrs` are the name and attributes of the parent `tag` (used by the
`item.parent` bold test on string children). -/
def extract_parts_children (pname : String) (pattrs : List (String × String))
    (items : List HNode) (bold_class : Option String) (base_url : Option String)
    (image_url_map : Option (List (String × ImgVal))) (images_fifo : Option (List ImgVal)) :
    List Ricos :=
  match items with
  | [] => []
  | .text txt :: rest =>
    (if pyStrip txt == "" then []
     else
       [build_text_node txt (pname == "span" && boldIn bold_class (classesOf pattrs)) none false []]) ++
    extract_parts_children pname pattrs rest bold_class base_url image_url_map images_fifo
  | .elem iname iattrs ics :: rest =>
    (if iname == "br" then []
     else if iname == "img" && pyTruthy (lookupAttrL iattrs "src") then
       -- images are skipped here; they become top-level blocks elsewhere
       []
     else if iname == "a" && pyTruthy (lookupAttrL iattrs "href") then
       let href := (lookupAttrL iattrs "href").getD ""
       [build_text_node (getTextAllL ics) (anyDescSpanBold bold_class ics)
          (some (deRedirect href)) true []]
     else
       extract_parts (.elem iname iattrs ics) bold_class base_url image_url_map images_fifo) ++
    extract_parts_children pname pattrs rest bold_class base_url image_url_map images_fifo
end

/-! ## `html_to_ricos` -/

/-- The traversal state of `html_to_ricos`: the accumulated block list,
the `prev` block-type marker and the (mutated) substitution queue. -/
structure ConvState where
  nodes : List Ricos
  prev : Option String
  fifo : Option (List ImgVal)
deriving Repr

/-- `add_node(node, block_type, prev_type)` acting on the accumulated
list: spacing before, append, spacing after; `None` nodes contribute
nothing and leave `prev` unchanged. -/
def add_node (nodes : List Ricos) (prev_type : Option String) (node : Option Ricos)
    (block_type : String) : List Ricos × Option String :=
  match node with
  | none => (nodes, prev_type)
  | some nd =>
    let ba := apply_spacing block_type
    let b := if block_type == "H2" && prev_type == some "IMAGE" then 1 else ba.1
    let ns := ensure_spacing nodes b ++ [nd]
    let needed := ba.2 - count_trailing_empty_paragraphs ns
    (ns ++ List.replicate needed empty_paragraph, some block_type)

/-- `add_node` lifted to the traversal state (the queue is untouched). -/
def addNodeState (st : ConvState) (node : Option Ricos) (block_type : String) : ConvState :=
  let an := add_node st.nodes st.prev node block_type
  ⟨an.1, an.2, st.fifo⟩

/-- The image-promotion loop shared verbatim by the heading and
paragraph branches:
`for im in imgs: u = resolve_image_src(im["src"], ...); add_node(wrap_image(u, im.get("alt", "")), "IMAGE", prev)`.
`im["src"]` raises `KeyError` when the attribute is missing. -/
def promoteImgs (base_url : Option String) (image_url_map : Option (List (String × ImgVal)))
    (st : ConvState) (imgs : List HNode) : Except String ConvState :=
  imgs.foldlM (fun s im =>
    match getAttr im "src" with
    | none => .error "KeyError: src"
    | some src =>
      let r := resolve_image_src src base_url image_url_map s.fifo
      let an := add_node s.nodes s.prev (wrap_image r.1 (getAttrD im "alt" "")) "IMAGE"
      .ok ⟨an.1, an.2, r.2⟩) st

/-- `int(tag[1])` for a heading tag name. -/
def headingLevel (tag : String) : Nat :=
  (tag.toList.getD 1 '0').toNat - '0'.toNat

/-- One iteration of the `for elem in body.find_all(recursive=False)`
dispatch loop of `html_to_ricos`. -/
def processElem (base_url : Option String) (image_url_map : Option (List (String × ImgVal)))
    (bold_class : Option String) (st : ConvState) (el : HNode) : Except String ConvState :=
  let tag := el.name
  if tag == "img" && pyTruthy (getAttr el "src") then
    let r := resolve_image_src (getAttrD el "src" "") base_url image_url_map st.fifo
    let an := add_node st.nodes st.prev (wrap_image r.1 (getAttrD el "alt" "")) "IMAGE"
    .ok ⟨an.1, an.2, r.2⟩
  else if tag == "h2" || tag == "h3" || tag == "h4" then do
    let level := headingLevel tag
    let st1 ← promoteImgs base_url image_url_map st (findAllName "img" el)
    let txt := getTextStripped el
    if txt == "" then pure st1
    else pure (addNodeState st1 (some (wrap_heading txt level)) ("H" ++ toString level))
  else if tag == "p" then
    let imgs := directChildrenNamed "img" el
    if imgs.isEmpty then
      let parts := extract_parts el bold_class base_url image_url_map st.fifo
      if parts.isEmpty then .ok st
      else .ok (addNodeState st (some (wrap_paragraph_nodes parts)) "PARAGRAPH")
    else do
      let st1 ← promoteImgs base_url image_url_map st imgs
      let parts := extract_parts el bold_class base_url image_url_map st1.fifo
      if parts.isEmpty then pure st1
      else pure (addNodeState st1 (some (wrap_paragraph_nodes parts)) "PARAGRAPH")
  else if tag == "ul" || tag == "ol" then
    let items := (directChildrenNamed "li" el).map
      (fun li => extract_parts li bold_class base_url image_url_map st.fifo)
    let items := items.filter (fun i => !i.isEmpty)
    if items.isEmpty then .ok st
    else .ok (addNodeState st (some (wrap_list items (tag == "ol")))
      (if tag == "ol" then "ORDERED_LIST" else "BULLETED_LIST"))
  else if tag == "table" then
    let table := (findAllName "tr" el).map (fun tr =>
      (findAllNames ["td", "th"] tr).map
        (fun td => extract_parts td bold_class base_url image_url_map st.fifo))
    if table.isEmpty then .ok st
    else .ok (addNodeState st (some (wrap_table table)) "TABLE")
  else .ok st

/-- The bold-class detection over the first `<style>` tag's string:
the first `}`-separated rule containing `font-weight:700` whose
selector (the part before `{`, stripped) starts with `.`. -/
def detectBoldClass (soup : HNode) : Option String :=
  match findFirstName "style" soup with
  | some style_tag =>
    -- `if style_tag and style_tag.string:` — a tag with no contents is falsy
    if (childrenOf style_tag).isEmpty then none
    else
      match nodeString style_tag with
      | some s =>
        if s == "" then none
        else
          (pySplit s "\x7d").findSome? (fun ln =>
            if strContains ln "font-weight:700" then
              let cls := pyStrip ((pySplit ln "\x7b").getD 0 "")
              if listStartsWith cls.toList ['.'] then some (String.mk (cls.toList.drop 1))
              else none
            else none)
      | none => none
  | none => none

/-- `soup.body or soup` — a found `<body>` with no contents is falsy
(BeautifulSoup tags take their truth value from `len(tag.contents)`),
so an empty body also falls back to `soup`. -/
def pickBody (soup : HNode) : HNode :=
  match findFirstName "body" soup with
  | some b => if (childrenOf b).isEmpty then soup else b
  | none => soup

/-- `html_to_ricos(html_string, base_url, image_url_map, images_fifo)`
over the parsed tree `soup`.  The result pairs the final block list
with the final state of the (destructively consumed) `images_fifo`;
a `KeyError` raised by `im["src"]` surfaces as `.error`. -/
def html_to_ricos (soup : HNode) (base_url : Option String)
    (image_url_map : Option (List (String × ImgVal))) (images_fifo : Option (List ImgVal)) :
    Except String (List Ricos × Option (List ImgVal)) :=
  match (directChildTags (pickBody soup)).foldlM
      (processElem base_url image_url_map (detectBoldClass soup))
      ⟨[], none, images_fifo⟩ with
  | .error e => .error e
  | .ok st => .ok (trimTrailingEmpty st.nodes, st.fifo)

/-! ## Observers and derived specification functions -/

/-- The Wix-media-id shape test used (textually twice) by the source:
`"~mv2." in src and "static.wixstatic.com/media/" not in src`. -/
def looksLikeWixId (src : String) : Bool :=
  strContains src "~mv2." && !strContains src "static.wixstatic.com/media/"

/-- The decorations of a `TEXT` node. -/
def decorationsOf : Ricos → List Decoration
  | .TEXT _ ds => ds
  | _ => []

/-- The `(url, target, rel)` triples of the `LINK` decorations in a
decoration list. -/
def linksOf (ds : List Decoration) : List (String × String × List String) :=
  ds.filterMap (fun d => match d with
    | .link u t r => some (u, t, r)
    | _ => none)

/-- Is the block an `IMAGE` block? -/
def isIMAGEBlock : Ricos → Bool
  | .IMAGE _ _ _ _ => true
  | _ => false

/-- Is the block a paragraph with content (the spec's `Paragraph`, as
opposed to the empty-paragraph `Spacer` representation)? -/
def isParagraphBlock : Ricos → Bool
  | .PARAGRAPH (_ :: _) _ _ => true
  | _ => false

/-- Is the decoration a `BOLD` decoration? -/
def isBoldDec : Decoration → Bool
  | .bold _ => true
  | _ => false

/-- The heading invariant: a `HEADING` block holds exactly one `TEXT`
node whose decorations include `BOLD`; all other blocks pass
trivially. -/
def headingOk : Ricos → Bool
  | .HEADING ns _ =>
    match ns with
    | [.TEXT _ ds] => ds.any isBoldDec
    | _ => false
  | _ => true

/-- Does the `<img>` have a truthy (present and non-empty) `src`? -/
def srcTruthy (im : HNode) : Bool :=
  pyTruthy (getAttr im "src")

/-- How many substitution-queue entries one dispatched element consumes
when the substitution table is absent: top-level `<img>`s with truthy
`src` and the images submitted by the heading (all `<img>` descendants)
and paragraph (direct-child `<img>`s) promotion loops, counting only
truthy `src` values (an empty `src` returns before the queue is
consulted). -/
def elemConsumed (el : HNode) : Nat :=
  let tag := el.name
  if tag == "img" && srcTruthy el then 1
  else if tag == "h2" || tag == "h3" || tag == "h4" then
    (findAllName "img" el).countP srcTruthy
  else if tag == "p" then
    (directChildrenNamed "img" el).countP srcTruthy
  else 0

/-- Total queue consumption of a document traversal (no substitution
table). -/
def docConsumed (soup : HNode) : Nat :=
  ((directChildTags (pickBody soup)).map elemConsumed).sum

/-- The spacing normalization as the spec describes it: trailing-spacer
adjustment to the required count (`ensure_spacing`) followed by the
end-of-document trailing-spacer trim. -/
def normalizeSpacing (nodes : List Ricos) (required : Nat) : List Ricos :=
  trimTrailingEmpty (ensure_spacing nodes required)

/-! ## Generic list lemmas -/

theorem takeWhile_dropWhile_nil {α : Type} (p : α → Bool) :
    ∀ l : List α, ((l.dropWhile p).takeWhile p) = [] := by
  intro l
  induction l with
  | nil => rfl
  | cons a t ih =>
    by_cases h : p a
    · simpa [List.dropWhile_cons, h] using ih
    · simp [List.dropWhile_cons, List.takeWhile_cons, h]

theorem dropWhile_eq_self_of_takeWhile_nil {α : Type} (p : α → Bool) :
    ∀ l : List α, l.takeWhile p = [] → l.dropWhile p = l := by
  intro l h
  cases l with
  | nil => rfl
  | cons a t =>
    by_cases hp : p a
    · simp [List.takeWhile_cons, hp] at h
    · simp [List.dropWhile_cons, hp]

theorem dropWhile_replicate_append {α : Type} (p : α → Bool) (a : α) (ha : p a = true) :
    ∀ (n : Nat) (l : List α), (List.replicate n a ++ l).dropWhile p = l.dropWhile p := by
  intro n
  induction n with
  | zero => intro l; rfl
  | succ m ih => intro l; simp [List.replicate_succ, List.dropWhile_cons, ha, ih]

theorem head?_dropWhile_false {α : Type} (p : α → Bool) :
    ∀ (l : List α) (b : α), (l.dropWhile p).head? = some b → p b = false := by
  intro l
  induction l with
  | nil => intro b h; simp at h
  | cons a t ih =>
    intro b h
    by_cases hp : p a
    · exact ih b (by simpa [List.dropWhile_cons, hp] using h)
    · simp [List.dropWhile_cons, hp] at h
      subst h
      simpa using hp

/-! ## Spacer accounting lemmas -/

theorem isEmptyPara_empty_paragraph : isEmptyPara empty_paragraph = true := rfl

theorem ctep_trim (D : List Ricos) :
    count_trailing_empty_paragraphs (trimTrailingEmpty D) = 0 := by
  unfold count_trailing_empty_paragraphs trimTrailingEmpty
  rw [List.reverse_reverse, takeWhile_dropWhile_nil]
  rfl

theorem trim_of_ctep_zero (D : List Ricos) (h : count_trailing_empty_paragraphs D = 0) :
    trimTrailingEmpty D = D := by
  unfold count_trailing_empty_paragraphs at h
  unfold trimTrailingEmpty
  rw [dropWhile_eq_self_of_takeWhile_nil _ _ (List.length_eq_zero.mp h), List.reverse_reverse]

theorem ensure_of_ctep_zero (D : List Ricos) (r : Nat)
    (h : count_trailing_empty_paragraphs D = 0) :
    ensure_spacing D r = D ++ List.replicate r empty_paragraph := by
  unfold ensure_spacing
  rw [h]
  simp

theorem trim_append_replicate (X : List Ricos) (r : Nat) :
    trimTrailingEmpty (X ++ List.replicate r empty_paragraph) = trimTrailingEmpty X := by
  unfold trimTrailingEmpty
  rw [List.reverse_append, List.reverse_replicate,
    dropWhile_replicate_append _ _ isEmptyPara_empty_paragraph]

/-- C9: the spacing normalization — trailing-spacer adjustment to the
required count (`ensure_spacing`) followed by the end-of-document
trailing-spacer trim — is idempotent: applying it to an
already-normalized block sequence leaves the sequence unchanged. -/
theorem spacing_normalization_idempotent (D : List Ricos) (r : Nat) :
    normalizeSpacing (normalizeSpacing D r) r = normalizeSpacing D r := by
  have h0 : count_trailing_empty_paragraphs (normalizeSpacing D r) = 0 := ctep_trim _
  rw [show normalizeSpacing (normalizeSpacing D r) r
      = trimTrailingEmpty (ensure_spacing (normalizeSpacing D r) r) from rfl,
    ensure_of_ctep_zero _ _ h0, trim_append_replicate, trim_of_ctep_zero _ h0]

/-! ## The trailing-spacer invariant -/

theorem getLast?_trimTrailingEmpty (l : List Ricos) (b : Ricos)
    (h : (trimTrailingEmpty l).getLast? = some b) : isEmptyPara b = false := by
  unfold trimTrailingEmpty at h
  rw [List.getLast?_reverse] at h
  exact head?_dropWhile_false _ _ _ h

/-- C8: whenever the conversion succeeds and returns a non-empty block
sequence, the last block is not a spacer (an empty paragraph): the
final trim removes every trailing run of spacers. -/
theorem trailing_spacer_invariant (soup : HNode) (bu : Option String)
    (imap : Option (List (String × ImgVal))) (fifo : Option (List ImgVal))
    (ns : List Ricos) (f : Option (List ImgVal))
    (h : html_to_ricos soup bu imap fifo = .ok (ns, f)) :
    ∀ b : Ricos, ns.getLast? = some b → isEmptyPara b = false := by
  intro b hb
  unfold html_to_ricos at h
  cases hfold : (directChildTags (pickBody soup)).foldlM
      (processElem bu imap (detectBoldClass soup)) ⟨[], none, fifo⟩ with
  | error e =>
    rw [hfold] at h
    simp at h
  | ok st =>
    rw [hfold] at h
    simp only [Except.ok.injEq, Prod.mk.injEq] at h
    obtain ⟨h1, _⟩ := h
    subst h1
    exact getLast?_trimTrailingEmpty _ _ hb

/-- Witness for C8 at `<p>hi</p>`. -/
theorem trailing_spacer_invariant_witness :
    isEmptyPara (Ricos.PARAGRAPH
      [Ricos.TEXT "hi" [Decoration.color "rgb(0, 0, 0)" "transparent"]] [] none) = false :=
  trailing_spacer_invariant (.elem "[document]" [] [.elem "p" [] [.text "hi"]]) none none none
    [Ricos.PARAGRAPH [] [] none,
     Ricos.PARAGRAPH [Ricos.TEXT "hi" [Decoration.color "rgb(0, 0, 0)" "transparent"]] [] none]
    none rfl _ rfl

/-! ## The image reference resolver: fallback chain -/

/-- C1 counterexample: an absolute URL (scheme and network location
present) that misses the substitution table, with an empty queue,
resolves to `none` — it is **not** returned as a resolved-URL media
reference, and the supplied base URL is ignored. -/
theorem absolute_url_not_resolved :
    is_absolute_url "https://example.com/a.png" = true ∧
    resolve_image_src "https://example.com/a.png" (some "https://base.example/dir/")
      none (some []) = (none, some []) :=
  ⟨by decide, by decide⟩

/-- C1 amended: when the source string misses the substitution table
(by exact and basename key), the queue is absent or empty, and the
source does not carry the embedded Wix-media-id pattern, the resolver
returns "unresolved" (`None`) regardless of whether the source is an
absolute URL and regardless of any supplied base URL; the absolute-URL
and base-URL-join steps do not exist in the code. -/
theorem unresolved_src_returns_none (src : String) (base_url : Option String)
    (imap : Option (List (String × ImgVal))) (fifo : Option (List ImgVal))
    (hmap : mapLookup src imap = none) (hfifo : fifo = none ∨ fifo = some [])
    (hpat : looksLikeWixId src = false) :
    resolve_image_src src base_url imap fifo = (none, fifo) := by
  have hpat' : (strContains src "~mv2." && !strContains src "static.wixstatic.com/media/")
      = false := hpat
  unfold resolve_image_src
  rw [hmap]
  rcases hfifo with h | h <;> subst h <;>
    by_cases hs : (src == "") = true <;>
    simp [hs, hpat']

/-- Witness for C1 at a non-wix plain URL with no map and no queue. -/
theorem unresolved_src_returns_none_witness :
    mapLookup "http://other.example/img.png" none = none ∧
    looksLikeWixId "http://other.example/img.png" = false ∧
    resolve_image_src "http://other.example/img.png" none none none = (none, none) :=
  ⟨rfl, by decide, unresolved_src_returns_none _ none none none rfl (Or.inl rfl) (by decide)⟩

/-- C5 counterexample: a source present in the substitution table by
exact key — the empty string — is **not** returned: the `if not src`
guard fires before the table lookup, and the resolver returns `None`. -/
theorem empty_src_ignores_exact_key :
    mapLookup "" (some [("", ImgVal.other)]) = some ImgVal.other ∧
    resolve_image_src "" none (some [("", ImgVal.other)]) none = (none, none) :=
  ⟨by decide, by decide⟩

/-- C5 amended: for every **non-empty** source string present in the
substitution table by exact key, the resolver returns that entry and
leaves the substitution queue untouched (for every queue value and
every base URL). -/
theorem exact_key_hit_preserves_queue (src : String) (base_url : Option String)
    (m : List (String × ImgVal)) (fifo : Option (List ImgVal)) (v : ImgVal)
    (hs : src ≠ "")
    (hhit : (m.find? (fun p => p.1 == src)).map (fun p => p.2) = some v) :
    resolve_image_src src base_url (some m) fifo = (some v, fifo) := by
  have hm : m.isEmpty = false := by
    cases m with
    | nil => simp at hhit
    | cons a t => rfl
  have hlook : mapLookup src (some m) = some v := by
    simp [mapLookup, hm, hhit]
  unfold resolve_image_src
  rw [hlook]
  simp [hs]

/-- Witness for C5: an exact basename key hit with a non-empty queue. -/
theorem exact_key_hit_preserves_queue_witness :
    resolve_image_src "image7.png" none (some [("image7.png", ImgVal.str "abc~mv2.png")])
      (some [ImgVal.other]) = (some (ImgVal.str "abc~mv2.png"), some [ImgVal.other]) :=
  exact_key_hit_preserves_queue _ none _ _ _ (by decide) rfl

/-! ## The `KeyError` on promoted images without `src` -/

/-- C2 (code bug): an `<img>` with no `src` attribute inside a heading
makes the conversion raise `KeyError` (the heading and paragraph
promotion loops subscript `im["src"]` without a guard), instead of
degrading to "no image emitted": the conversion of
`<h2><img>Title</h2>` errors out. -/
theorem heading_missing_src_keyerror :
    html_to_ricos (.elem "[document]" [] [.elem "h2" [] [.elem "img" [] [], .text "Title"]])
      none none none = .error "KeyError: src" := rfl

/-! ## Link decorations (`format_decorations`) -/

/-- C6 counterexample: with `is_link` true and a non-empty URL, the one
`LINK` decoration produced carries `target = "BLANK"` and
`rel = {noreferrer}`; `nofollow` is **not** among its rel keys. -/
theorem link_rel_is_noreferrer :
    linksOf (format_decorations false true (some "u") false) = [("u", "BLANK", ["noreferrer"])] ∧
    "nofollow" ∉ ["noreferrer"] :=
  ⟨by decide, by decide⟩

/-- C6 amended: the decoration set built by `format_decorations`
contains exactly one `LINK` decoration when `is_link` is true and the
URL is non-empty — that decoration carries the URL, `target = "BLANK"`
(open in new tab) and `rel = {noreferrer: true}` (not `noFollow`) —
and contains no `LINK` decoration otherwise. -/
theorem link_decoration_shape (is_bold is_link : Bool) (link_url : Option String)
    (is_underline : Bool) :
    linksOf (format_decorations is_bold is_link link_url is_underline) =
      (if is_link && pyTruthy link_url then [(link_url.getD "", "BLANK", ["noreferrer"])]
       else []) := by
  cases is_bold <;> cases is_link <;> cases is_underline <;> cases h : pyTruthy link_url <;>
    simp [format_decorations, linksOf, h]

/-! ## Paragraph image promotion -/

/-- C7 counterexample: an image nested below a direct child of the
paragraph (`<p><span><img src="a.png"></span></p>`) is neither
promoted to a top-level `IMAGE` block nor kept inline — the output has
no blocks at all even though the substitution queue could resolve it
(and the queue is left untouched). -/
theorem nested_image_not_promoted :
    (findAllName "img"
      (HNode.elem "p" [] [.elem "span" [] [.elem "img" [("src", "a.png")] []]])).length = 1 ∧
    html_to_ricos
      (.elem "[document]" [] [.elem "p" [] [.elem "span" [] [.elem "img" [("src", "a.png")] []]]])
      none none (some [ImgVal.dict (some "m1") none none none none]) =
      .ok ([], some [ImgVal.dict (some "m1") none none none none]) :=
  ⟨by decide, rfl⟩

/-- C7 amended: a **direct-child** image of a paragraph is promoted to
a standalone top-level `IMAGE` block and removed from the paragraph's
content, and a `PARAGRAPH` block is emitted only when the remaining
inline sequence is non-empty: `<p><img src="a.png"></p>`, with a
one-entry substitution queue resolving the source, yields exactly one
`IMAGE` block and zero (non-empty) `PARAGRAPH` blocks — the only other
block is the spacer inserted by the spacing rule. -/
theorem direct_child_image_promoted :
    html_to_ricos (.elem "[document]" [] [.elem "p" [] [.elem "img" [("src", "a.png")] []]])
      none none (some [ImgVal.dict (some "m1") none none none none]) =
      .ok ([empty_paragraph, Ricos.IMAGE "m1" "" none none], some []) ∧
    [empty_paragraph, Ricos.IMAGE "m1" "" none none].countP isIMAGEBlock = 1 ∧
    [empty_paragraph, Ricos.IMAGE "m1" "" none none].countP isParagraphBlock = 0 :=
  ⟨rfl, by decide, by decide⟩

/-! ## Anchor extraction and link de-redirection -/

/-- C3 counterexample: the spec's example anchor
`<a href="https://x.com/url?q=https%3A%2F%2Ftarget.example%2Fp&sa=D">t</a>`
does **not** match the code's redirector test (`"google.com/url?q=" in
href`), so its link is the percent-decoded whole href — not the
decoded `q=` parameter `https://target.example/p`. -/
theorem xcom_redirector_not_unwrapped :
    extract_parts (.elem "p" []
        [.elem "a" [("href", "https://x.com/url?q=https%3A%2F%2Ftarget.example%2Fp&sa=D")]
          [.text "t"]])
      none none none none =
      [Ricos.TEXT "t"
        [Decoration.bold 700, Decoration.color "#3A11AE" "transparent",
         Decoration.link "https://x.com/url?q=https://target.example/p&sa=D" "BLANK"
           ["noreferrer"],
         Decoration.underline]] ∧
    "https://x.com/url?q=https://target.example/p&sa=D" ≠ "https://target.example/p" :=
  ⟨rfl, by decide⟩

/-- C3 amended: an anchor with a truthy href contributes exactly one
text run over the anchor's flattened text, linked to the
de-redirected, percent-decoded target — where the redirector pattern
is specifically hrefs containing `google.com/url?q=` (whose decoded
`q=` value up to the next `&` is taken); every other href, including
the spec's `x.com` example, is percent-decoded as-is.  The run always
carries `UNDERLINE`, and carries the `LINK` decoration whenever the
computed target is non-empty. -/
theorem anchor_link_extraction (pn : String) (pattrs aattrs : List (String × String))
    (achildren : List HNode) (bc bu : Option String)
    (imap : Option (List (String × ImgVal))) (fifo : Option (List ImgVal)) (href : String)
    (hhref : lookupAttrL aattrs "href" = some href) (hne : href ≠ "") :
    extract_parts (.elem pn pattrs [.elem "a" aattrs achildren]) bc bu imap fifo =
      [build_text_node (getTextAllL achildren) (anyDescSpanBold bc achildren)
        (some (deRedirect href)) true []] ∧
    ∀ r ∈ extract_parts (.elem pn pattrs [.elem "a" aattrs achildren]) bc bu imap fifo,
      Decoration.underline ∈ decorationsOf r ∧
      (deRedirect href = "" ∨
        Decoration.link (deRedirect href) "BLANK" ["noreferrer"] ∈ decorationsOf r) := by
  have htru : pyTruthy (some href) = true := by simp [pyTruthy, hne]
  have e1 : extract_parts (.elem pn pattrs [.elem "a" aattrs achildren]) bc bu imap fifo =
      [build_text_node (getTextAllL achildren) (anyDescSpanBold bc achildren)
        (some (deRedirect href)) true []] := by
    simp only [extract_parts, extract_parts_children, hhref, htru]
    simp
  refine ⟨e1, ?_⟩
  intro r hr
  rw [e1] at hr
  simp only [List.mem_singleton] at hr
  subst hr
  constructor
  · simp [build_text_node, decorationsOf, format_decorations]
  · by_cases hz : deRedirect href = ""
    · exact Or.inl hz
    · right
      have hl : pyTruthy (some (deRedirect href)) = true := by simp [pyTruthy, hz]
      simp [build_text_node, decorationsOf, format_decorations, hl]

/-- Witness for C3 at the real Google-redirector shape: the `q=`
parameter is unwrapped and percent-decoded. -/
theorem anchor_link_extraction_witness :
    deRedirect "https://www.google.com/url?q=https%3A%2F%2Ftarget.example%2Fp&sa=D"
      = "https://target.example/p" ∧
    extract_parts (.elem "p" []
        [.elem "a"
          [("href", "https://www.google.com/url?q=https%3A%2F%2Ftarget.example%2Fp&sa=D")]
          [.text "t"]]) none none none none =
      [build_text_node "t" false (some "https://target.example/p") true []] :=
  ⟨rfl,
    (anchor_link_extraction "p" []
      [("href", "https://www.google.com/url?q=https%3A%2F%2Ftarget.example%2Fp&sa=D")]
      [.text "t"] none none none none
      "https://www.google.com/url?q=https%3A%2F%2Ftarget.example%2Fp&sa=D"
      rfl (by decide)).1⟩

/-! ## The heading invariant -/

theorem headingOk_wrap_heading (txt : String) (level : Nat) :
    headingOk (wrap_heading txt level) = true := by
  cases h : (level == 3) <;>
    simp [wrap_heading, h, build_text_node, format_decorations, pyTruthy, headingOk, isBoldDec]

theorem headingOk_wrap_image (o : Option ImgVal) (alt : String) (r : Ricos)
    (h : wrap_image o alt = some r) : headingOk r = true := by
  unfold wrap_image at h
  cases ho : o.bind normalize_img_obj with
  | none => rw [ho] at h; simp at h
  | some norm =>
    rw [ho] at h
    by_cases hid : (norm.id == "") = true
    · simp [hid] at h
    · simp only [hid, Bool.false_eq_true, if_false, Option.some.injEq] at h
      rw [← h]
      rfl

theorem headingOk_wrap_list (items : List (List Ricos)) (ordered : Bool) :
    headingOk (wrap_list items ordered) = true := by
  cases ordered <;> simp [wrap_list, headingOk]

theorem mem_ensure_spacing (nodes : List Ricos) (r : Nat) (b : Ricos)
    (hb : b ∈ ensure_spacing nodes r) : b ∈ nodes ∨ b = empty_paragraph := by
  unfold ensure_spacing at hb
  by_cases h : count_trailing_empty_paragraphs nodes ≤ r
  · simp only [h, if_true] at hb
    rcases List.mem_append.mp hb with h1 | h1
    · exact Or.inl h1
    · exact Or.inr (List.eq_of_mem_replicate h1)
  · simp only [h, if_false] at hb
    exact Or.inl (List.take_subset _ _ hb)

theorem mem_add_node (nodes : List Ricos) (prev : Option String) (node : Option Ricos)
    (bt : String) (b : Ricos) (hb : b ∈ (add_node nodes prev node bt).1) :
    b ∈ nodes ∨ node = some b ∨ b = empty_paragraph := by
  cases node with
  | none => exact Or.inl hb
  | some nd =>
    simp only [add_node] at hb
    rcases List.mem_append.mp hb with h1 | h1
    · rcases List.mem_append.mp h1 with h2 | h2
      · rcases mem_ensure_spacing _ _ _ h2 with h3 | h3
        · exact Or.inl h3
        · exact Or.inr (Or.inr h3)
      · rw [List.mem_singleton] at h2
        subst h2
        exact Or.inr (Or.inl rfl)
    · exact Or.inr (Or.inr (List.eq_of_mem_replicate h1))

/-- The traversal invariant: every accumulated block satisfies the
heading well-formedness observer. -/
def InvH (st : ConvState) : Prop := ∀ b ∈ st.nodes, headingOk b = true

theorem foldlM_except_inv {σ α : Type} (f : σ → α → Except String σ) (Inv : σ → Prop)
    (hf : ∀ s a s', Inv s → f s a = .ok s' → Inv s') :
    ∀ (l : List α) (s s' : σ), Inv s → l.foldlM f s = .ok s' → Inv s' := by
  intro l
  induction l with
  | nil =>
    intro s s' hs h
    simp only [List.foldlM_nil] at h
    cases h
    exact hs
  | cons a t ih =>
    intro s s' hs h
    rw [List.foldlM_cons] at h
    cases hfa : f s a with
    | error e => rw [hfa] at h; simp [Bind.bind, Except.bind] at h
    | ok s1 =>
      rw [hfa] at h
      simp only [Bind.bind, Except.bind] at h
      exact ih s1 s' (hf s a s1 hs hfa) h

theorem addNodeState_inv (st : ConvState) (node : Option Ricos) (bt : String)
    (hst : InvH st) (hnode : ∀ x, node = some x → headingOk x = true) :
    InvH (addNodeState st node bt) := by
  intro b hb
  simp only [addNodeState] at hb
  rcases mem_add_node _ _ _ _ _ hb with h | h | h
  · exact hst b h
  · exact hnode b h
  · rw [h]; rfl

theorem promoteImgs_inv (bu : Option String) (imap : Option (List (String × ImgVal)))
    (imgs : List HNode) (st st' : ConvState)
    (hst : InvH st) (h : promoteImgs bu imap st imgs = .ok st') : InvH st' := by
  unfold promoteImgs at h
  refine foldlM_except_inv _ InvH ?_ imgs st st' hst h
  intro s im s2 hs hf
  cases hat : getAttr im "src" with
  | none => rw [hat] at hf; cases hf
  | some src =>
    rw [hat] at hf
    simp only [Except.ok.injEq] at hf
    subst hf
    intro b hb
    rcases mem_add_node _ _ _ _ _ hb with h1 | h1 | h1
    · exact hs b h1
    · exact headingOk_wrap_image _ _ _ h1
    · rw [h1]; rfl

theorem headingOk_wrap_paragraph_nodes (parts : List Ricos) :
    headingOk (wrap_paragraph_nodes parts) = true := rfl

theorem headingOk_wrap_table (t : List (List (List Ricos))) :
    headingOk (wrap_table t) = true := rfl

theorem processElem_inv (bu : Option String) (imap : Option (List (String × ImgVal)))
    (bc : Option String) (st : ConvState) (el : HNode) (st' : ConvState)
    (hst : InvH st) (h : processElem bu imap bc st el = .ok st') : InvH st' := by
  simp only [processElem] at h
  split at h
  · -- top-level <img> branch
    simp only [Except.ok.injEq] at h
    subst h
    intro b hb
    rcases mem_add_node _ _ _ _ _ hb with h1 | h1 | h1
    · exact hst b h1
    · exact headingOk_wrap_image _ _ _ h1
    · rw [h1]; rfl
  · split at h
    · -- heading branch
      simp only [Bind.bind] at h
      cases hpro : promoteImgs bu imap st (findAllName "img" el) with
      | error e => rw [hpro] at h; cases h
      | ok st1 =>
        rw [hpro] at h
        simp only [Except.bind] at h
        have hst1 : InvH st1 := promoteImgs_inv _ _ _ _ _ hst hpro
        split at h
        · simp only [pure, Except.pure, Except.ok.injEq] at h
          subst h
          exact hst1
        · simp only [pure, Except.pure, Except.ok.injEq] at h
          subst h
          refine addNodeState_inv _ _ _ hst1 ?_
          intro x hx
          injection hx with hx
          rw [← hx]
          exact headingOk_wrap_heading _ _
    · split at h
      · -- paragraph branch
        split at h
        · -- no direct-child images
          split at h
          · simp only [Except.ok.injEq] at h
            subst h
            exact hst
          · simp only [Except.ok.injEq] at h
            subst h
            refine addNodeState_inv _ _ _ hst ?_
            intro x hx
            injection hx with hx
            rw [← hx]
            exact headingOk_wrap_paragraph_nodes _
        · -- with direct-child images
          simp only [Bind.bind] at h
          cases hpro : promoteImgs bu imap st (directChildrenNamed "img" el) with
          | error e => rw [hpro] at h; cases h
          | ok st1 =>
            rw [hpro] at h
            simp only [Except.bind] at h
            have hst1 : InvH st1 := promoteImgs_inv _ _ _ _ _ hst hpro
            split at h
            · simp only [pure, Except.pure, Except.ok.injEq] at h
              subst h
              exact hst1
            · simp only [pure, Except.pure, Except.ok.injEq] at h
              subst h
              refine addNodeState_inv _ _ _ hst1 ?_
              intro x hx
              injection hx with hx
              rw [← hx]
              exact headingOk_wrap_paragraph_nodes _
      · split at h
        · -- list branch
          split at h
          · simp only [Except.ok.injEq] at h
            subst h
            exact hst
          · simp only [Except.ok.injEq] at h
            subst h
            refine addNodeState_inv _ _ _ hst ?_
            intro x hx
            injection hx with hx
            rw [← hx]
            exact headingOk_wrap_list _ _
        · split at h
          · -- table branch
            split at h
            · simp only [Except.ok.injEq] at h
              subst h
              exact hst
            · simp only [Except.ok.injEq] at h
              subst h
              refine addNodeState_inv _ _ _ hst ?_
              intro x hx
              injection hx with hx
              rw [← hx]
              exact headingOk_wrap_table _
          · -- unrecognized tag: skipped
            simp only [Except.ok.injEq] at h
            subst h
            exact hst

/-- C10: every `HEADING` block in the output of a successful conversion
holds exactly one `TEXT` node, and that node's decorations include a
`BOLD` decoration — `wrap_heading` always builds its single text node
with `bold=True`, regardless of the source markup. -/
theorem heading_blocks_single_bold_text (soup : HNode) (bu : Option String)
    (imap : Option (List (String × ImgVal))) (fifo : Option (List ImgVal))
    (ns : List Ricos) (f : Option (List ImgVal))
    (h : html_to_ricos soup bu imap fifo = .ok (ns, f)) :
    ∀ b ∈ ns, headingOk b = true := by
  unfold html_to_ricos at h
  cases hfold : (directChildTags (pickBody soup)).foldlM
      (processElem bu imap (detectBoldClass soup)) ⟨[], none, fifo⟩ with
  | error e =>
    rw [hfold] at h
    simp at h
  | ok st =>
    rw [hfold] at h
    simp only [Except.ok.injEq, Prod.mk.injEq] at h
    obtain ⟨h1, _⟩ := h
    subst h1
    intro b hb
    have hmem : b ∈ st.nodes := by
      unfold trimTrailingEmpty at hb
      rw [List.mem_reverse] at hb
      exact List.mem_reverse.mp ((List.dropWhile_sublist _).subset hb)
    exact foldlM_except_inv _ InvH
      (fun s a s2 hs hf => processElem_inv _ _ _ _ _ _ hs hf) _ _ _
      (by intro x hx; exact absurd hx (List.not_mem_nil x)) hfold b hmem

/-- Witness for C10 at `<h2>T</h2>`: the heading block the conversion
emits satisfies the invariant. -/
theorem heading_blocks_single_bold_text_witness :
    headingOk (Ricos.HEADING [Ricos.TEXT "T"
      [Decoration.bold 700, Decoration.color "rgb(0, 0, 0)" "transparent"]] 2) = true :=
  heading_blocks_single_bold_text (.elem "[document]" [] [.elem "h2" [] [.text "T"]])
    none none none _ none rfl
    (Ricos.HEADING [Ricos.TEXT "T"
      [Decoration.bold 700, Decoration.color "rgb(0, 0, 0)" "transparent"]] 2)
    (List.mem_cons_of_mem _ (List.mem_cons_of_mem _ (List.mem_cons_self _ _)))

/-! ## Queue consumption -/

theorem resolve_fifo_drop (src : String) (bu : Option String) (l : List ImgVal) :
    (resolve_image_src src bu none (some l)).2 =
      some (l.drop (if src == "" then 0 else 1)) := by
  unfold resolve_image_src
  by_cases hs : (src == "") = true
  · simp [hs]
  · cases l with
    | nil =>
      simp only [hs, Bool.false_eq_true, if_false, mapLookup]
      split <;> rfl
    | cons x rest =>
      simp [hs, mapLookup]

theorem promoteImgs_fifo_drop (bu : Option String) (imgs : List HNode) :
    ∀ (st st' : ConvState) (l : List ImgVal), st.fifo = some l →
      promoteImgs bu none st imgs = .ok st' →
      st'.fifo = some (l.drop (imgs.countP srcTruthy)) := by
  induction imgs with
  | nil =>
    intro st st' l hl h
    unfold promoteImgs at h
    simp only [List.foldlM_nil] at h
    cases h
    simpa using hl
  | cons im rest ih =>
    intro st st' l hl h
    unfold promoteImgs at h
    rw [List.foldlM_cons] at h
    cases hat : getAttr im "src" with
    | none =>
      rw [hat] at h
      simp [Bind.bind, Except.bind] at h
    | some src =>
      rw [hat] at h
      simp only [Bind.bind, Except.bind] at h
      have h2 := ih ⟨(add_node st.nodes st.prev
          (wrap_image (resolve_image_src src bu none st.fifo).1 (getAttrD im "alt" "")) "IMAGE").1,
        (add_node st.nodes st.prev
          (wrap_image (resolve_image_src src bu none st.fifo).1 (getAttrD im "alt" "")) "IMAGE").2,
        (resolve_image_src src bu none st.fifo).2⟩ st'
        (l.drop (if src == "" then 0 else 1))
        (by rw [hl]; exact resolve_fifo_drop src bu l) h
      rw [h2, List.drop_drop, List.countP_cons]
      have hsrc : srcTruthy im = pyTruthy (some src) := by
        unfold srcTruthy
        rw [hat]
      by_cases hse : (src == "") = true
      · have : srcTruthy im = false := by simp [hsrc, pyTruthy, hse]
        simp [hse, this]
      · have : srcTruthy im = true := by simp [hsrc, pyTruthy, hse]
        simp only [hse, Bool.false_eq_true, if_false, this, if_true]
        rw [Nat.add_comm]

theorem processElem_fifo_drop (bu bc : Option String) (st st' : ConvState) (el : HNode)
    (l : List ImgVal) (hl : st.fifo = some l)
    (h : processElem bu none bc st el = .ok st') :
    st'.fifo = some (l.drop (elemConsumed el)) := by
  simp only [processElem] at h
  simp only [elemConsumed, srcTruthy]
  split at h
  · -- top-level <img src=...>
    rename_i hcond
    simp only [Except.ok.injEq] at h
    subst h
    rw [if_pos hcond]
    have h2 := (Bool.and_eq_true _ _).mp hcond |>.2
    cases hattr : getAttr el "src" with
    | none => rw [hattr] at h2; simp [pyTruthy] at h2
    | some s =>
      rw [hattr] at h2
      have hse : (s == "") = false := by
        simpa [pyTruthy] using h2
      have hgd : getAttrD el "src" "" = s := by
        unfold getAttrD
        rw [hattr]
        rfl
      show (resolve_image_src (getAttrD el "src" "") bu none st.fifo).2 = _
      rw [hgd, hl, resolve_fifo_drop, hse]
      simp
  · rename_i hc1
    rw [if_neg hc1]
    split at h
    · -- heading branch
      rename_i hc2
      rw [if_pos hc2]
      simp only [Bind.bind] at h
      cases hpro : promoteImgs bu none st (findAllName "img" el) with
      | error e => rw [hpro] at h; cases h
      | ok st1 =>
        rw [hpro] at h
        simp only [Except.bind] at h
        have h1 := promoteImgs_fifo_drop bu (findAllName "img" el) st st1 l hl hpro
        split at h <;>
          (simp only [pure, Except.pure, Except.ok.injEq] at h; subst h)
        · exact h1
        · exact h1
    · rename_i hc2
      rw [if_neg hc2]
      split at h
      · -- paragraph branch
        rename_i hc3
        rw [if_pos hc3]
        split at h
        · -- no direct-child images
          rename_i himgs
          have hz : (directChildrenNamed "img" el).countP srcTruthy = 0 := by
            rw [List.isEmpty_iff.mp himgs]
            rfl
          rw [hz]
          split at h <;>
            (simp only [Except.ok.injEq] at h; subst h) <;>
            simpa using hl
        · simp only [Bind.bind] at h
          cases hpro : promoteImgs bu none st (directChildrenNamed "img" el) with
          | error e => rw [hpro] at h; cases h
          | ok st1 =>
            rw [hpro] at h
            simp only [Except.bind] at h
            have h1 := promoteImgs_fifo_drop bu (directChildrenNamed "img" el) st st1 l hl hpro
            split at h <;>
              (simp only [pure, Except.pure, Except.ok.injEq] at h; subst h)
            · exact h1
            · exact h1
      · rename_i hc3
        rw [if_neg hc3]
        split at h
        · -- list branch: the queue is never consulted
          rename_i hc4
          split at h <;>
            (simp only [Except.ok.injEq] at h; subst h) <;>
            simpa using hl
        · split at h
          · -- table branch: the queue is never consulted
            split at h <;>
              (simp only [Except.ok.injEq] at h; subst h) <;>
              simpa using hl
          · -- unrecognized tag
            simp only [Except.ok.injEq] at h
            subst h
            simpa using hl

theorem fold_fifo_drop (bu bc : Option String) :
    ∀ (els : List HNode) (st st' : ConvState) (l : List ImgVal), st.fifo = some l →
      els.foldlM (processElem bu none bc) st = .ok st' →
      st'.fifo = some (l.drop ((els.map elemConsumed).sum)) := by
  intro els
  induction els with
  | nil =>
    intro st st' l hl h
    simp only [List.foldlM_nil] at h
    cases h
    simpa using hl
  | cons el rest ih =>
    intro st st' l hl h
    rw [List.foldlM_cons] at h
    cases hpe : processElem bu none bc st el with
    | error e => rw [hpe] at h; simp [Bind.bind, Except.bind] at h
    | ok st1 =>
      rw [hpe] at h
      simp only [Bind.bind, Except.bind] at h
      have h1 := processElem_fifo_drop bu bc st st1 el l hl hpe
      have h2 := ih st1 st' (l.drop (elemConsumed el)) h1 h
      rw [h2, List.drop_drop, List.map_cons, List.sum_cons, Nat.add_comm]

/-- C4 counterexample: `<p><b><img src="a.png"></b></p>` contains
`N = 1` image whose source misses the (absent) substitution table, and
the queue has `M = 1 ≤ N` entries — yet the image is nested below a
direct child of the paragraph, so it never reaches the resolver: no
image resolves via the queue and the queue is **not** empty after the
conversion. -/
theorem nested_image_skips_queue :
    html_to_ricos (.elem "[document]" []
        [.elem "p" [] [.elem "b" [] [.elem "img" [("src", "a.png")] []]]])
      none none (some [ImgVal.other]) = .ok ([], some [ImgVal.other]) ∧
    ([ImgVal.other] : List ImgVal) ≠ [] :=
  ⟨rfl, by decide⟩

/-- C4 amended: with no substitution table, the final state of the
substitution queue is the initial queue with exactly one entry popped
from the front — in document order — for each image actually submitted
to the resolver with a truthy `src` (top-level `<img>`s, `<img>`
descendants of headings, and direct-child `<img>`s of paragraphs, as
counted by `docConsumed`); images nested deeper inside paragraphs or
inside list/table content never consult the queue.  In particular,
when the queue holds `M ≤ docConsumed soup` entries it is empty
afterwards, and each entry is consumed by at most one image. -/
theorem queue_consumed_in_document_order (soup : HNode) (bu : Option String)
    (fifo : List ImgVal) (ns : List Ricos) (f : Option (List ImgVal))
    (h : html_to_ricos soup bu none (some fifo) = .ok (ns, f)) :
    f = some (fifo.drop (docConsumed soup)) := by
  unfold html_to_ricos at h
  cases hfold : (directChildTags (pickBody soup)).foldlM
      (processElem bu none (detectBoldClass soup)) ⟨[], none, some fifo⟩ with
  | error e =>
    rw [hfold] at h
    simp at h
  | ok st =>
    rw [hfold] at h
    simp only [Except.ok.injEq, Prod.mk.injEq] at h
    obtain ⟨_, h2⟩ := h
    subst h2
    exact fold_fifo_drop bu (detectBoldClass soup) _ _ st fifo rfl hfold

/-- Witness for C4: two top-level images, a one-entry queue
(`M = 1 ≤ N = 2`): the queue is empty afterwards. -/
theorem queue_consumed_in_document_order_witness :
    docConsumed (.elem "[document]" []
      [.elem "img" [("src", "a.png")] [], .elem "img" [("src", "b.png")] []]) = 2 ∧
    (some ([] : List ImgVal)) = some (([ImgVal.other] : List ImgVal).drop
      (docConsumed (.elem "[document]" []
        [.elem "img" [("src", "a.png")] [], .elem "img" [("src", "b.png")] []]))) :=
  ⟨by decide,
    queue_consumed_in_document_order
      (.elem "[document]" [] [.elem "img" [("src", "a.png")] [], .elem "img" [("src", "b.png")] []])
      none [ImgVal.other] [] (some []) rfl⟩
